import Mathlib

/-!
Shallow embedding of `reinvent_plugins/components/comp_synthetic_feasibility.py`:
the synthetic-feasibility scoring component (`SyntheticFeasibility`), a pure
HTTP client that posts a batch of SMILES strings to one or more remote scoring
servers and assembles one score array per server.

Modelling conventions:
* JSON values decoded by `response.json()` are the inductive `JsonVal`
  (Python `None`/bool/number/str/list/dict).
* A numpy float32 slot is modelled as `Option PyFloat`: `none` is the NaN
  ("missing value") sentinel written by `np.full(..., np.nan)`, `some x` a
  stored prediction — a finite value kept as an exact rational, or one of
  the non-finite doubles.  Single-precision rounding is not modelled.
* Python exceptions are modelled with `Except PyExc`; the class-based
  `except` clauses of the source are mirrored by matching on the `PyExc`
  constructor.
* The network is modelled as a function `net : Nat → HttpOutcome` giving the
  outcome of the n-th POST issued during a call; the list of issued requests
  is returned alongside the result so that outbound traffic can be stated.
-/

namespace CompSyntheticFeasibility

/-- A decoded JSON value, as produced by Python's `response.json()`. -/
inductive JsonVal where
  | null
  | bool (b : Bool)
  | num (q : ℚ)
  | str (s : String)
  | arr (xs : List JsonVal)
  | obj (kvs : List (String × JsonVal))

/-- Python exception classes that the source can raise or catch.
`valueError` carries the message built at raise time. -/
inductive PyExc where
  | valueError (msg : String)
  | typeError
  | keyError
  | attributeError
  | overflowError
  | requestException
deriving DecidableEq

/-- The value of a Python float as far as this embedding tracks it: an
exact rational for finite values (rounding to IEEE-754 double is not
modelled), or one of the non-finite doubles `inf`, `-inf`, `nan`. -/
inductive PyFloat where
  | finite (q : ℚ)
  | inf
  | neginf
  | nan
deriving DecidableEq

/-- One slot of the score array: `none` is the NaN sentinel written by
`np.full(..., np.nan)`, `some x` a value stored by `results[i] = float(...)`. -/
abbrev ScoreVal := Option PyFloat

/-- A per-endpoint score array (the spec's ScoreVector). -/
abbrev ScoreVector := List ScoreVal

/-- The smallest magnitude at which correctly-rounded conversion to an
IEEE-754 double overflows: the midpoint `2^1024 - 2^970` between the
largest finite double `2^1024 - 2^971` and `2^1024` rounds up (round half
to even), so `float(int)` raises `OverflowError`, and `strtod` saturates a
string, exactly when the magnitude is at or beyond this boundary.  Written
as the explicit numeral (the power form is `doubleOverflowBound_eq`) so
that concrete runs evaluate without deep exponentiation unfolding. -/
def doubleOverflowBound : ℚ := 179769313486231580793728971405303415079934132710037826936173778980444968292764750946649017977587207096330286416692887910946555547851940402630657488671505820681908902000708383676273854845817711531764475730270069855571366959622842914819860834936475292719074168444365510704342711559699508093042880177904174497792

/-- One of Python's underscore-separated digit runs (PEP 515, as accepted
by `float(str)`): ASCII digits with single underscores strictly between
digits.  The run's value, or `none` when empty or malformed. -/
def digitRunAux : List Char → ℕ → Option ℕ
  | [], acc => some acc
  | '_' :: c :: rest, acc =>
      if c.isDigit then digitRunAux rest (10 * acc + (c.toNat - 48)) else none
  | ['_'], _ => none
  | c :: rest, acc =>
      if c.isDigit then digitRunAux rest (10 * acc + (c.toNat - 48)) else none

/-- Value of a digit run, `none` when empty or malformed. -/
def digitRunVal : List Char → Option ℕ
  | [] => none
  | c :: rest => if c.isDigit then digitRunAux rest (c.toNat - 48) else none

/-- Classify an exactly-computed conversion result the way C `strtod` (and
hence Python's string-to-float path) does: magnitudes at or beyond the
double-overflow boundary saturate to the infinities. -/
def pyFinite (q : ℚ) : Option PyFloat :=
  if doubleOverflowBound ≤ q then some PyFloat.inf
  else if q ≤ -doubleOverflowBound then some PyFloat.neginf
  else some (PyFloat.finite q)

/-- Model of Python's `float(s)` on a string: optional surrounding
whitespace and sign; then, case-insensitively, `inf`/`infinity`/`nan`, or a
decimal mantissa `digits[.digits]` / `.digits` (digit runs may contain
PEP-515 underscores) with an optional `e`/`E` exponent.  The value is kept
as an exact rational (rounding to double is not modelled) except that
out-of-range magnitudes saturate to the infinities, as `strtod` does
(`float("1e400")` is `inf`, not an error).  `none` exactly where Python
raises `ValueError`.  (Non-ASCII digit variants are not modelled.) -/
def pyFloatString (s : String) : Option PyFloat :=
  let cs := s.trim.toList
  let signed : ℚ × List Char :=
    match cs with
    | '-' :: rest => (-1, rest)
    | '+' :: rest => (1, rest)
    | _ => (1, cs)
  let sign := signed.1
  let body := signed.2
  let lower := body.map Char.toLower
  if lower = "inf".toList ∨ lower = "infinity".toList then
    some (if sign = 1 then PyFloat.inf else PyFloat.neginf)
  else if lower = "nan".toList then some PyFloat.nan
  else
    let mant := body.takeWhile (fun c => c ≠ 'e' ∧ c ≠ 'E')
    let erest := body.dropWhile (fun c => c ≠ 'e' ∧ c ≠ 'E')
    let intPart := mant.takeWhile (· ≠ '.')
    let dotrest := mant.dropWhile (· ≠ '.')
    let fracPart := dotrest.drop 1
    if fracPart.contains '.' then none
    else if intPart.isEmpty ∧ fracPart.isEmpty then none
    else
      let intVal : Option ℕ :=
        if intPart.isEmpty then some 0 else digitRunVal intPart
      let fracVal : Option ℕ :=
        if fracPart.isEmpty then some 0 else digitRunVal fracPart
      match intVal, fracVal with
      | some iv, some fv =>
          let mantQ : ℚ :=
            (iv : ℚ) + (fv : ℚ) / (10 : ℚ) ^ (fracPart.filter Char.isDigit).length
          match erest with
          | [] => pyFinite (sign * mantQ)
          | _ :: etail =>
              let esigned : ℤ × List Char :=
                match etail with
                | '-' :: r => (-1, r)
                | '+' :: r => (1, r)
                | _ => (1, etail)
              match digitRunVal esigned.2 with
              | none => none
              | some ev =>
                  pyFinite (sign * mantQ * (10 : ℚ) ^ (esigned.1 * (ev : ℤ)))
      | _, _ => none

/-- Model of Python's builtin `float(x)` on a decoded JSON value: a finite
number within double range converts (exactly — rounding is not modelled);
a number at or beyond the overflow boundary raises `OverflowError` — JSON
integer literals decode to arbitrary-precision `int`s and `float(int)`
overflows there, while every finite decoded float already lies below the
boundary, so such a `.num` necessarily models an `int`; bools convert;
strings parse per `pyFloatString` or raise `ValueError`; `None`, lists and
dicts raise `TypeError`. -/
def pyFloat (v : JsonVal) : Except PyExc PyFloat :=
  match v with
  | .num q =>
      if doubleOverflowBound ≤ |q| then .error .overflowError
      else .ok (.finite q)
  | .bool b => .ok (.finite (if b then 1 else 0))
  | .str s =>
      match pyFloatString s with
      | some x => .ok x
      | none => .error (.valueError "could not convert string to float")
  | _ => .error .typeError

/-- Model of Python's `x.get(key)`: on a dict, the value (or `None` when the
key is absent); on any other decoded JSON value, `AttributeError`. -/
def pyGet (v : JsonVal) (key : String) : Except PyExc JsonVal :=
  match v with
  | .obj kvs =>
      .ok (match kvs.lookup key with
           | some x => x
           | none => .null)
  | _ => .error .attributeError

/-- The body of one iteration of `_parse_response`'s loop
(source lines 110-115): `prediction = result.get("prediction")`, then
`float(prediction)` when `prediction is not None`, with
`except (ValueError, TypeError, KeyError): pass`.
`.ok (some x)` means slot `i` is assigned `x`; `.ok none` means the slot is
left untouched; `.error e` is an uncaught exception (only `AttributeError`
from `.get` on a non-dict and `OverflowError` from `float` on an
out-of-range int escape the `except` clause). -/
def entryStep (result : JsonVal) : Except PyExc (Option PyFloat) :=
  let body : Except PyExc (Option PyFloat) :=
    (pyGet result "prediction").bind fun prediction =>
      match prediction with
      | .null => .ok none
      | p => (pyFloat p).map some
  match body with
  | .error (.valueError _) => .ok none
  | .error .typeError => .ok none
  | .error .keyError => .ok none
  | other => other

/-- The `for i, result in enumerate(response_json)` loop of
`_parse_response` (source lines 107-115), with the `if i >= data_size: break`
guard, threading the `results` array. -/
def parseLoop (data_size : ℕ) :
    List JsonVal → ℕ → List ScoreVal → Except PyExc (List ScoreVal)
  | [], _, results => .ok results
  | result :: rest, i, results =>
      if data_size ≤ i then .ok results
      else
        match entryStep result with
        | .ok none => parseLoop data_size rest (i + 1) results
        | .ok (some q) => parseLoop data_size rest (i + 1) (results.set i (some q))
        | .error e => .error e

/-- `SyntheticFeasibility._parse_response` (source lines 89-117):
start from `np.full(data_size, np.nan)`, return it unchanged when the body is
not a list, otherwise run the fill loop. -/
def parse_response (response_json : JsonVal) (data_size : ℕ) :
    Except PyExc (List ScoreVal) :=
  let results : List ScoreVal := List.replicate data_size none
  match response_json with
  | .arr entries => parseLoop data_size entries 0 results
  | _ => .ok results

/-- `isinstance(v, list)` on a decoded JSON value (source line 102). -/
def JsonVal.isList : JsonVal → Bool
  | .arr _ => true
  | _ => false

/-- Derived closed form of `entryStep` on a dict entry: the slot value
written for `{...}` — the coerced `prediction` when present, non-`None`
and coercible, otherwise no write. -/
def objSlot (kvs : List (String × JsonVal)) : Option PyFloat :=
  match kvs.lookup "prediction" with
  | none => none
  | some .null => none
  | some p =>
      match pyFloat p with
      | .ok q => some q
      | .error _ => none

/-- The `Parameters` dataclass (source lines 18-29): three optional
list-valued fields, each defaulting to `None`. -/
structure Parameters where
  server_url : Option (List String)
  server_port : Option (List ℕ)
  server_endpoint : Option (List String)

/-- Source line 32. -/
def DEFAULT_SERVER_URL : String := "http://localhost"

/-- Source line 33. -/
def DEFAULT_SERVER_PORT : ℕ := 5000

/-- Source line 34. -/
def DEFAULT_SERVER_ENDPOINT : String := "synthetic_feasibility_surrogate"

/-- Python's `xs or [default]` on an optional list: `None` and the empty
list are falsy, any non-empty list is returned as-is. -/
def pyOrList {α : Type} (v : Option (List α)) (dflt : List α) : List α :=
  match v with
  | none => dflt
  | some xs => if xs.isEmpty then dflt else xs

/-- The component state built by `SyntheticFeasibility.__init__`
(source lines 39-47). -/
structure SyntheticFeasibility where
  server_urls : List String
  server_ports : List ℕ
  server_endpoints : List String
  smiles_type : String
  number_of_endpoints : ℕ

/-- `SyntheticFeasibility.__init__` (source lines 39-47). -/
def SyntheticFeasibility.init (params : Parameters) : SyntheticFeasibility :=
  let urls := pyOrList params.server_url [DEFAULT_SERVER_URL]
  let ports := pyOrList params.server_port [DEFAULT_SERVER_PORT]
  let endpoints := pyOrList params.server_endpoint [DEFAULT_SERVER_ENDPOINT]
  { server_urls := urls
    server_ports := ports
    server_endpoints := endpoints
    smiles_type := "rdkit_smiles"
    number_of_endpoints := urls.length }

/-- The observable parts of a `requests.Response` that the source reads. -/
structure PyResponse where
  status_code : ℕ
  reason : String
  content : String
  text : String
  /-- Result of `response.json()`: `none` when the body is not decodable
  JSON (Python then raises `JSONDecodeError`, a `RequestException`). -/
  jsonBody : Option JsonVal

/-- Outcome of one `requests.post`: either a network-level failure
(`requests.exceptions.RequestException` raised by `requests.post` itself) or
a response delivered by the server. -/
inductive HttpOutcome where
  | transportError
  | response (r : PyResponse)

/-- One outbound HTTP POST as issued by source lines 58-67. -/
structure HttpRequest where
  url : String
  jsonBody : JsonVal
  headers : List (String × String)
  timeout : ℕ

/-- The request built for endpoint triple `(url, port, endpoint)` and batch
`smilies`: `full_url = f"{url}:{port}/{endpoint}"`,
`json_data = {"smiles": smilies}`, `Content-Type` header, `timeout=30`
(source lines 58-67). -/
def mkRequest : String × ℕ × String → List String → HttpRequest
  | (url, port, endpoint), smilies =>
      { url := url ++ ":" ++ toString port ++ "/" ++ endpoint
        jsonBody := .obj [("smiles", .arr (smilies.map .str))]
        headers := [("Content-Type", "application/json")]
        timeout := 30 }

/-- The ValueError message raised on a non-200 status (source lines 70-76). -/
def apiFailureMessage (r : PyResponse) : String :=
  "Synthetic feasibility API failed.\nStatus Code: " ++ toString r.status_code ++
    "\nReason: (" ++ r.reason ++
    ")\nResponse content: " ++ r.content ++
    "\nResponse text: " ++ r.text

/-- The `try`/`except` body of one iteration of `__call__`'s loop
(source lines 61-85), for outcome `o` and batch size `N`:
* a transport failure of `requests.post` is a `RequestException`, caught by
  line 82; the `except` branch appends `np.full(len(smilies), np.nan)`
  (lines 83-85);
* a response with status ≠ 200 raises the `ValueError` of lines 70-76,
  which is not a `RequestException` and so propagates;
* a status-200 response whose body is not decodable JSON makes
  `response.json()` raise `JSONDecodeError`, a `RequestException`, again
  caught by line 82 into the all-NaN array;
* otherwise the decoded body goes through `_parse_response` (line 79),
  whose own uncaught exceptions propagate.
`.ok v` means `v` is appended to `scores`; `.error e` aborts the call. -/
def endpointResult (o : HttpOutcome) (N : ℕ) : Except PyExc (List ScoreVal) :=
  match o with
  | .transportError => .ok (List.replicate N none)
  | .response r =>
      if r.status_code ≠ 200 then .error (.valueError (apiFailureMessage r))
      else
        match r.jsonBody with
        | none => .ok (List.replicate N none)
        | some body => parse_response body N

/-- The `for url, port, endpoint in zip(...)` loop of
`SyntheticFeasibility.__call__` (source lines 51-87).  `n` counts POSTs
already issued, `scores` and `reqs` accumulate; the returned pair is the
full request trace together with either the final `scores` list or the
uncaught exception (which aborts the remaining iterations). -/
def scoreLoop (net : ℕ → HttpOutcome) (smilies : List String) :
    List (String × ℕ × String) → ℕ → List (List ScoreVal) →
      List HttpRequest → List HttpRequest × Except PyExc (List (List ScoreVal))
  | [], _, scores, reqs => (reqs, .ok scores)
  | t :: rest, n, scores, reqs =>
      let reqs' := reqs ++ [mkRequest t smilies]
      match endpointResult (net n) smilies.length with
      | .error e => (reqs', .error e)
      | .ok results => scoreLoop net smilies rest (n + 1) (scores ++ [results]) reqs'

/-- `SyntheticFeasibility.__call__` (source lines 49-87): zip the three
endpoint lists and run the scoring loop over the resulting triples.
The `ComponentResults(scores)` wrapper is the plain list of score arrays. -/
def SyntheticFeasibility.call (self : SyntheticFeasibility)
    (net : ℕ → HttpOutcome) (smilies : List String) :
    List HttpRequest × Except PyExc (List (List ScoreVal)) :=
  scoreLoop net smilies
    (self.server_urls.zip (self.server_ports.zip self.server_endpoints))
    0 [] []

/-- Derived: the results of running `e` endpoints starting at request
index `n`, stopping at the first uncaught exception. -/
def runEndpoints (net : ℕ → HttpOutcome) (N : ℕ) :
    ℕ → ℕ → Except PyExc (List (List ScoreVal))
  | 0, _ => .ok []
  | e + 1, n =>
      match endpointResult (net n) N with
      | .error err => .error err
      | .ok v =>
          match runEndpoints net N e (n + 1) with
          | .error err => .error err
          | .ok vs => .ok (v :: vs)

/-- Derived: the POSTs issued for the given triples starting at request
index `n` — one per endpoint up to and including the first whose outcome
raises an uncaught exception. -/
def runTrace (net : ℕ → HttpOutcome) (smilies : List String) :
    List (String × ℕ × String) → ℕ → List HttpRequest
  | [], _ => []
  | t :: rest, n =>
      mkRequest t smilies ::
        match endpointResult (net n) smilies.length with
        | .error _ => []
        | .ok _ => runTrace net smilies rest (n + 1)

/-! ### Parser lemmas -/

/-- The overflow boundary numeral is `2^1024 - 2^970`. -/
theorem doubleOverflowBound_eq :
    doubleOverflowBound = ((2 ^ 1024 - 2 ^ 970 : ℕ) : ℚ) := by
  rw [doubleOverflowBound]
  norm_num

/-- `entryStep` on a dict entry whose prediction, when a number, lies
within double range never raises: it yields the `objSlot` closed form (the
source's `except (ValueError, TypeError, KeyError)` catches every exception
`float` can raise there apart from the `OverflowError` of an out-of-range
int). -/
theorem entryStep_obj (kvs : List (String × JsonVal))
    (hrange : ∀ q, kvs.lookup "prediction" = some (JsonVal.num q) →
      |q| < doubleOverflowBound) :
    entryStep (.obj kvs) = .ok (objSlot kvs) := by
  unfold entryStep objSlot pyGet
  cases hl : kvs.lookup "prediction" with
  | none => simp [hl, Except.bind]
  | some x =>
      cases x with
      | null => simp [hl, Except.bind]
      | num q =>
          have hlt := (hrange q hl).not_le
          simp [hl, Except.bind, pyFloat, Except.map, hlt]
      | bool b => simp [hl, Except.bind, pyFloat, Except.map]
      | str s =>
          cases hs : pyFloatString s with
          | none => simp [hl, hs, Except.bind, pyFloat, Except.map]
          | some q => simp [hl, hs, Except.bind, pyFloat, Except.map]
      | arr xs => simp [hl, Except.bind, pyFloat, Except.map]
      | obj kvs2 => simp [hl, Except.bind, pyFloat, Except.map]

/-- The fill loop preserves the array length. -/
theorem parseLoop_length (d : ℕ) (es : List JsonVal) (i : ℕ)
    (res out : List ScoreVal) (h : parseLoop d es i res = .ok out) :
    out.length = res.length := by
  induction es generalizing i res with
  | nil =>
      simp only [parseLoop] at h
      cases h
      rfl
  | cons e rest ih =>
      simp only [parseLoop] at h
      by_cases hd : d ≤ i
      · rw [if_pos hd] at h
        cases h
        rfl
      · rw [if_neg hd] at h
        cases hstep : entryStep e with
        | error err => rw [hstep] at h; exact Except.noConfusion h
        | ok o =>
            cases o with
            | none => rw [hstep] at h; exact ih _ _ h
            | some q =>
                rw [hstep] at h
                rw [ih _ _ h, List.length_set]

/-- The fill loop never touches slots below the start index, at or beyond
`data_size`, or at or beyond start + number of entries. -/
theorem parseLoop_get_outside (d : ℕ) (es : List JsonVal) (i : ℕ)
    (res out : List ScoreVal) (h : parseLoop d es i res = .ok out) (j : ℕ)
    (hj : j < i ∨ i + es.length ≤ j ∨ d ≤ j) : out[j]? = res[j]? := by
  induction es generalizing i res with
  | nil =>
      simp only [parseLoop] at h
      cases h
      rfl
  | cons e rest ih =>
      simp only [parseLoop] at h
      by_cases hd : d ≤ i
      · rw [if_pos hd] at h
        cases h
        rfl
      · rw [if_neg hd] at h
        have hij : j ≠ i := by
          rcases hj with h1 | h2 | h3
          · omega
          · simp only [List.length_cons] at h2; omega
          · omega
        cases hstep : entryStep e with
        | error err => rw [hstep] at h; exact Except.noConfusion h
        | ok o =>
            cases o with
            | none =>
                rw [hstep] at h
                refine ih _ _ h ?_
                rcases hj with h1 | h2 | h3
                · left; omega
                · right; left; simp only [List.length_cons] at h2; omega
                · right; right; exact h3
            | some q =>
                rw [hstep] at h
                have := ih _ _ h (by
                  rcases hj with h1 | h2 | h3
                  · left; omega
                  · right; left; simp only [List.length_cons] at h2; omega
                  · right; right; exact h3)
                rw [this, List.getElem?_set', if_neg (by omega)]

/-- When entry `k` (within range and batch) coerces to `q`, slot `i + k`
of a successful fill holds `q`. -/
theorem parseLoop_get_assigned (d : ℕ) (es : List JsonVal) (i : ℕ)
    (res out : List ScoreVal) (h : parseLoop d es i res = .ok out)
    (k : ℕ) (hk : k < es.length) (hkd : i + k < d) (q : PyFloat)
    (hstep : entryStep (es.get ⟨k, hk⟩) = .ok (some q))
    (hres : i + k < res.length) : out[i + k]? = some (some q) := by
  induction es generalizing i res k with
  | nil => exact absurd hk (by simp)
  | cons e rest ih =>
      simp only [parseLoop] at h
      rw [if_neg (by omega)] at h
      cases k with
      | zero =>
          have he : entryStep e = .ok (some q) := hstep
          rw [he] at h
          have hout := parseLoop_get_outside d rest (i + 1) _ out h i (by omega)
          rw [Nat.add_zero] at hres ⊢
          rw [hout]
          exact List.getElem?_set_eq_of_lt _ hres
      | succ k' =>
          have hk' : k' < rest.length := by
            simp only [List.length_cons] at hk; omega
          have hstep' : entryStep (rest.get ⟨k', hk'⟩) = .ok (some q) := hstep
          have hidx : i + (k' + 1) = (i + 1) + k' := by omega
          rw [hidx] at hres ⊢
          cases hstepe : entryStep e with
          | error err => rw [hstepe] at h; exact Except.noConfusion h
          | ok o =>
              cases o with
              | none =>
                  rw [hstepe] at h
                  exact ih (i + 1) res h k' hk' (by omega) hstep' hres
              | some q0 =>
                  rw [hstepe] at h
                  have hres' : (i + 1) + k' < (res.set i (some q0)).length := by
                    rw [List.length_set]; omega
                  exact ih (i + 1) (res.set i (some q0)) h k' hk' (by omega) hstep' hres'

/-- When entry `k` (within range and batch) yields no write (missing/`None`
prediction or caught coercion failure), slot `i + k` is unchanged. -/
theorem parseLoop_get_skipped (d : ℕ) (es : List JsonVal) (i : ℕ)
    (res out : List ScoreVal) (h : parseLoop d es i res = .ok out)
    (k : ℕ) (hk : k < es.length) (hkd : i + k < d)
    (hstep : entryStep (es.get ⟨k, hk⟩) = .ok none) :
    out[i + k]? = res[i + k]? := by
  induction es generalizing i res k with
  | nil => exact absurd hk (by simp)
  | cons e rest ih =>
      simp only [parseLoop] at h
      rw [if_neg (by omega)] at h
      cases k with
      | zero =>
          have he : entryStep e = .ok none := hstep
          rw [he] at h
          rw [Nat.add_zero]
          exact parseLoop_get_outside d rest (i + 1) _ out h i (by omega)
      | succ k' =>
          have hk' : k' < rest.length := by
            simp only [List.length_cons] at hk; omega
          have hstep' : entryStep (rest.get ⟨k', hk'⟩) = .ok none := hstep
          have hidx : i + (k' + 1) = (i + 1) + k' := by omega
          rw [hidx]
          cases hstepe : entryStep e with
          | error err => rw [hstepe] at h; exact Except.noConfusion h
          | ok o =>
              cases o with
              | none =>
                  rw [hstepe] at h
                  exact ih (i + 1) res h k' hk' (by omega) hstep'
              | some q0 =>
                  rw [hstepe] at h
                  have hset := ih (i + 1) (res.set i (some q0)) h k' hk' (by omega) hstep'
                  rw [hset, List.getElem?_set', if_neg (by omega)]

/-- A response list whose entries are all dicts with predictions that,
when numbers, lie within double range is parsed without raising. -/
theorem parseLoop_ok_of_dicts (d : ℕ) (es : List JsonVal) (i : ℕ)
    (res : List ScoreVal)
    (hdict : ∀ e ∈ es, ∃ kvs, e = .obj kvs ∧
      ∀ q, kvs.lookup "prediction" = some (JsonVal.num q) →
        |q| < doubleOverflowBound) :
    ∃ out, parseLoop d es i res = .ok out := by
  induction es generalizing i res with
  | nil => exact ⟨res, rfl⟩
  | cons e rest ih =>
      simp only [parseLoop]
      by_cases hd : d ≤ i
      · rw [if_pos hd]; exact ⟨res, rfl⟩
      · rw [if_neg hd]
        obtain ⟨kvs, rfl, hrange⟩ := hdict e (by simp)
        rw [entryStep_obj kvs hrange]
        have hrest : ∀ e ∈ rest, ∃ kvs, e = JsonVal.obj kvs ∧
            ∀ q, kvs.lookup "prediction" = some (JsonVal.num q) →
              |q| < doubleOverflowBound :=
          fun e he => hdict e (by simp [he])
        cases objSlot kvs with
        | none => exact ih (i + 1) res hrest
        | some q => exact ih (i + 1) (res.set i (some q)) hrest

/-- A successful parse returns an array of exactly `data_size` slots. -/
theorem parse_response_length (j : JsonVal) (d : ℕ) (out : List ScoreVal)
    (h : parse_response j d = .ok out) : out.length = d := by
  cases j <;> simp only [parse_response] at h
  case arr xs => exact (parseLoop_length _ _ _ _ _ h).trans (List.length_replicate _ _)
  all_goals (cases h; exact List.length_replicate _ _)

/-! ### Scoring-loop lemmas -/

/-- A per-endpoint score array, however obtained (parser on success,
all-NaN fallback on transport failure), has the batch's length. -/
theorem endpointResult_length (o : HttpOutcome) (N : ℕ) (v : List ScoreVal)
    (h : endpointResult o N = .ok v) : v.length = N := by
  cases o with
  | transportError =>
      simp only [endpointResult] at h
      cases h
      exact List.length_replicate _ _
  | response r =>
      simp only [endpointResult] at h
      by_cases hs : r.status_code ≠ 200
      · rw [if_pos hs] at h; exact Except.noConfusion h
      · rw [if_neg hs] at h
        cases hb : r.jsonBody with
        | none => rw [hb] at h; cases h; exact List.length_replicate _ _
        | some body => rw [hb] at h; exact parse_response_length _ _ _ h

/-- The result component of the loop is the endpoint results appended to the
accumulator, stopping at the first uncaught exception. -/
theorem scoreLoop_snd (net : ℕ → HttpOutcome) (smilies : List String)
    (ts : List (String × ℕ × String)) (n : ℕ) (scores : List (List ScoreVal))
    (reqs : List HttpRequest) :
    (scoreLoop net smilies ts n scores reqs).2 =
      match runEndpoints net smilies.length ts.length n with
      | .error e => .error e
      | .ok vs => .ok (scores ++ vs) := by
  induction ts generalizing n scores reqs with
  | nil => simp [scoreLoop, runEndpoints]
  | cons t rest ih =>
      simp only [scoreLoop, List.length_cons, runEndpoints]
      cases h : endpointResult (net n) smilies.length with
      | error e => rfl
      | ok v =>
          rw [ih]
          cases runEndpoints net smilies.length rest.length (n + 1) <;> simp

/-- The request-trace component of the loop is the issued POSTs appended to
the accumulator. -/
theorem scoreLoop_fst (net : ℕ → HttpOutcome) (smilies : List String)
    (ts : List (String × ℕ × String)) (n : ℕ) (scores : List (List ScoreVal))
    (reqs : List HttpRequest) :
    (scoreLoop net smilies ts n scores reqs).1 =
      reqs ++ runTrace net smilies ts n := by
  induction ts generalizing n scores reqs with
  | nil => simp [scoreLoop, runTrace]
  | cons t rest ih =>
      simp only [scoreLoop, runTrace]
      cases h : endpointResult (net n) smilies.length with
      | error e => rfl
      | ok v => rw [ih]; simp

/-- A successful run yields one score array per endpoint. -/
theorem runEndpoints_ok_length (net : ℕ → HttpOutcome) (N e n : ℕ)
    (vs : List (List ScoreVal)) (h : runEndpoints net N e n = .ok vs) :
    vs.length = e := by
  induction e generalizing n vs with
  | zero => simp only [runEndpoints] at h; cases h; rfl
  | succ e ih =>
      simp only [runEndpoints] at h
      cases h1 : endpointResult (net n) N with
      | error err => rw [h1] at h; exact Except.noConfusion h
      | ok v =>
          rw [h1] at h
          cases h2 : runEndpoints net N e (n + 1) with
          | error err => rw [h2] at h; exact Except.noConfusion h
          | ok vs' =>
              rw [h2] at h
              cases h
              simp [ih _ _ h2]

/-- Every array in a successful run has the batch's length. -/
theorem runEndpoints_ok_mem_length (net : ℕ → HttpOutcome) (N e n : ℕ)
    (vs : List (List ScoreVal)) (h : runEndpoints net N e n = .ok vs) :
    ∀ v ∈ vs, v.length = N := by
  induction e generalizing n vs with
  | zero => simp only [runEndpoints] at h; cases h; simp
  | succ e ih =>
      simp only [runEndpoints] at h
      cases h1 : endpointResult (net n) N with
      | error err => rw [h1] at h; exact Except.noConfusion h
      | ok v =>
          rw [h1] at h
          cases h2 : runEndpoints net N e (n + 1) with
          | error err => rw [h2] at h; exact Except.noConfusion h
          | ok vs' =>
              rw [h2] at h
              cases h
              intro w hw
              rcases List.mem_cons.mp hw with rfl | hw'
              · exact endpointResult_length _ _ _ h1
              · exact ih _ _ h2 w hw'

/-- In a successful run, slot `k` is exactly endpoint `n + k`'s own result. -/
theorem runEndpoints_ok_get (net : ℕ → HttpOutcome) (N e n : ℕ)
    (vs : List (List ScoreVal)) (h : runEndpoints net N e n = .ok vs) :
    ∀ k, k < e → ∃ v, endpointResult (net (n + k)) N = .ok v ∧ vs[k]? = some v := by
  induction e generalizing n vs with
  | zero => intro k hk; omega
  | succ e ih =>
      simp only [runEndpoints] at h
      cases h1 : endpointResult (net n) N with
      | error err => rw [h1] at h; exact Except.noConfusion h
      | ok v =>
          rw [h1] at h
          cases h2 : runEndpoints net N e (n + 1) with
          | error err => rw [h2] at h; exact Except.noConfusion h
          | ok vs' =>
              rw [h2] at h
              cases h
              intro k hk
              cases k with
              | zero => exact ⟨v, by simpa using h1, by simp⟩
              | succ k' =>
                  obtain ⟨w, hw1, hw2⟩ := ih _ _ h2 k' (by omega)
                  refine ⟨w, ?_, by simpa using hw2⟩
                  have : n + (k' + 1) = (n + 1) + k' := by omega
                  rw [this]
                  exact hw1

/-- If every endpoint's outcome is caught or parsed (no uncaught
exception), the run succeeds. -/
theorem runEndpoints_ok_of_all (net : ℕ → HttpOutcome) (N e n : ℕ)
    (h : ∀ k, k < e → ∃ v, endpointResult (net (n + k)) N = .ok v) :
    ∃ vs, runEndpoints net N e n = .ok vs := by
  induction e generalizing n with
  | zero => exact ⟨[], rfl⟩
  | succ e ih =>
      obtain ⟨v, hv⟩ := h 0 (by omega)
      rw [Nat.add_zero] at hv
      obtain ⟨vs, hvs⟩ := ih (n + 1) (by
        intro k hk
        obtain ⟨w, hw⟩ := h (k + 1) (by omega)
        refine ⟨w, ?_⟩
        have : (n + 1) + k = n + (k + 1) := by omega
        rw [this]
        exact hw)
      exact ⟨v :: vs, by simp only [runEndpoints]; rw [hv, hvs]⟩

/-- The run aborts with the first uncaught exception. -/
theorem runEndpoints_error_at (net : ℕ → HttpOutcome) (N : ℕ) (err : PyExc)
    (j : ℕ) :
    ∀ e n, (∀ k, k < j → ∃ v, endpointResult (net (n + k)) N = .ok v) →
      j < e → endpointResult (net (n + j)) N = .error err →
      runEndpoints net N e n = .error err := by
  induction j with
  | zero =>
      intro e n _ hje herr
      cases e with
      | zero => omega
      | succ e =>
          rw [Nat.add_zero] at herr
          simp only [runEndpoints]
          rw [herr]
  | succ j ih =>
      intro e n hok hje herr
      cases e with
      | zero => omega
      | succ e =>
          obtain ⟨v, hv⟩ := hok 0 (by omega)
          rw [Nat.add_zero] at hv
          simp only [runEndpoints]
          rw [hv]
          have hrec : runEndpoints net N e (n + 1) = .error err := by
            refine ih e (n + 1) ?_ (by omega) ?_
            · intro k hk
              obtain ⟨w, hw⟩ := hok (k + 1) (by omega)
              refine ⟨w, ?_⟩
              have : (n + 1) + k = n + (k + 1) := by omega
              rw [this]
              exact hw
            · have : (n + 1) + j = n + (j + 1) := by omega
              rw [this]
              exact herr
          rw [hrec]

/-- When no endpoint aborts, exactly one POST per zipped triple is issued,
in order. -/
theorem runTrace_ok (net : ℕ → HttpOutcome) (smilies : List String)
    (ts : List (String × ℕ × String)) (n : ℕ)
    (h : ∀ k, k < ts.length → ∃ v, endpointResult (net (n + k)) smilies.length = .ok v) :
    runTrace net smilies ts n = ts.map (fun t => mkRequest t smilies) := by
  induction ts generalizing n with
  | nil => rfl
  | cons t rest ih =>
      obtain ⟨v, hv⟩ := h 0 (by simp)
      rw [Nat.add_zero] at hv
      simp only [runTrace, List.map_cons]
      rw [hv]
      refine congrArg _ (ih (n + 1) ?_)
      intro k hk
      obtain ⟨w, hw⟩ := h (k + 1) (by simp; omega)
      refine ⟨w, ?_⟩
      have : (n + 1) + k = n + (k + 1) := by omega
      rw [this]
      exact hw

/-- When endpoint `j` is the first to abort, POSTs are issued only for
triples `0..j`. -/
theorem runTrace_error_at (net : ℕ → HttpOutcome) (smilies : List String)
    (err : PyExc) (j : ℕ) :
    ∀ (ts : List (String × ℕ × String)) n,
      (∀ k, k < j → ∃ v, endpointResult (net (n + k)) smilies.length = .ok v) →
      j < ts.length → endpointResult (net (n + j)) smilies.length = .error err →
      runTrace net smilies ts n = (ts.take (j + 1)).map (fun t => mkRequest t smilies) := by
  induction j with
  | zero =>
      intro ts n _ hj herr
      cases ts with
      | nil => simp at hj
      | cons t rest =>
          rw [Nat.add_zero] at herr
          simp only [runTrace]
          rw [herr]
          simp
  | succ j ih =>
      intro ts n hok hj herr
      cases ts with
      | nil => simp at hj
      | cons t rest =>
          obtain ⟨v, hv⟩ := hok 0 (by omega)
          rw [Nat.add_zero] at hv
          simp only [runTrace]
          rw [hv]
          simp only [List.take_succ_cons, List.map_cons]
          refine congrArg _ (ih rest (n + 1) ?_ (by simp at hj; omega) ?_)
          · intro k hk
            obtain ⟨w, hw⟩ := hok (k + 1) (by omega)
            refine ⟨w, ?_⟩
            have : (n + 1) + k = n + (k + 1) := by omega
            rw [this]
            exact hw
          · have : (n + 1) + j = n + (j + 1) := by omega
            rw [this]
            exact herr

/-! ### Call-level characterizations -/

/-- A call that returns: the request trace is one POST per zipped endpoint
triple, results are one array per triple with the batch's length, and slot
`k` is endpoint `k`'s own result. -/
theorem call_ok_char (self : SyntheticFeasibility) (net : ℕ → HttpOutcome)
    (smilies : List String) (reqs : List HttpRequest)
    (out : List (List ScoreVal))
    (hcall : self.call net smilies = (reqs, .ok out)) :
    reqs = (self.server_urls.zip (self.server_ports.zip self.server_endpoints)).map
        (fun t => mkRequest t smilies) ∧
    out.length =
      (self.server_urls.zip (self.server_ports.zip self.server_endpoints)).length ∧
    (∀ v ∈ out, v.length = smilies.length) ∧
    ∀ k v,
      k < (self.server_urls.zip (self.server_ports.zip self.server_endpoints)).length →
      endpointResult (net k) smilies.length = .ok v → out[k]? = some v := by
  simp only [SyntheticFeasibility.call] at hcall
  have hsnd :
      (Except.ok out : Except PyExc (List (List ScoreVal))) =
        match runEndpoints net smilies.length
            (self.server_urls.zip (self.server_ports.zip self.server_endpoints)).length 0 with
        | .error e => .error e
        | .ok vs => .ok ([] ++ vs) := by
    have h := scoreLoop_snd net smilies
      (self.server_urls.zip (self.server_ports.zip self.server_endpoints)) 0 [] []
    rw [hcall] at h
    exact h
  cases hrun : runEndpoints net smilies.length
      (self.server_urls.zip (self.server_ports.zip self.server_endpoints)).length 0 with
  | error e => rw [hrun] at hsnd; exact Except.noConfusion hsnd
  | ok vs =>
      rw [hrun] at hsnd
      simp only [List.nil_append] at hsnd
      obtain rfl : out = vs := by
        cases hsnd
        rfl
      have hallok : ∀ k,
          k < (self.server_urls.zip (self.server_ports.zip self.server_endpoints)).length →
          ∃ v, endpointResult (net k) smilies.length = .ok v := by
        intro k hk
        obtain ⟨v, hv, _⟩ := runEndpoints_ok_get net smilies.length _ 0 out hrun k hk
        exact ⟨v, by simpa using hv⟩
      refine ⟨?_, runEndpoints_ok_length _ _ _ _ _ hrun,
        runEndpoints_ok_mem_length _ _ _ _ _ hrun, ?_⟩
      · have hfst := scoreLoop_fst net smilies
          (self.server_urls.zip (self.server_ports.zip self.server_endpoints)) 0 [] []
        rw [hcall] at hfst
        simp only [List.nil_append] at hfst
        rw [hfst]
        exact runTrace_ok net smilies _ 0 (by simpa using hallok)
      · intro k v hk hv
        obtain ⟨w, hw1, hw2⟩ := runEndpoints_ok_get net smilies.length _ 0 out hrun k hk
        rw [Nat.zero_add] at hw1
        rw [hv] at hw1
        cases hw1
        exact hw2

/-- When no endpoint's outcome is an uncaught exception, the call returns. -/
theorem call_ok_of_all (self : SyntheticFeasibility) (net : ℕ → HttpOutcome)
    (smilies : List String)
    (h : ∀ k,
      k < (self.server_urls.zip (self.server_ports.zip self.server_endpoints)).length →
      ∃ v, endpointResult (net k) smilies.length = .ok v) :
    ∃ out, (self.call net smilies).2 = .ok out := by
  obtain ⟨vs, hvs⟩ := runEndpoints_ok_of_all net smilies.length
    (self.server_urls.zip (self.server_ports.zip self.server_endpoints)).length 0
    (by simpa using h)
  refine ⟨vs, ?_⟩
  rw [SyntheticFeasibility.call, scoreLoop_snd, hvs]
  simp

/-- When endpoint `j` is the first whose outcome is an uncaught exception,
the call raises it and issues only POSTs `0..j`. -/
theorem call_error_char (self : SyntheticFeasibility) (net : ℕ → HttpOutcome)
    (smilies : List String) (j : ℕ) (err : PyExc)
    (hj : j < (self.server_urls.zip (self.server_ports.zip self.server_endpoints)).length)
    (hearlier : ∀ k, k < j → ∃ v, endpointResult (net k) smilies.length = .ok v)
    (herr : endpointResult (net j) smilies.length = .error err) :
    (self.call net smilies).2 = .error err ∧
    (self.call net smilies).1 =
      ((self.server_urls.zip (self.server_ports.zip self.server_endpoints)).take (j + 1)).map
        (fun t => mkRequest t smilies) := by
  have hrun : runEndpoints net smilies.length
      (self.server_urls.zip (self.server_ports.zip self.server_endpoints)).length 0 =
      .error err :=
    runEndpoints_error_at net smilies.length err j _ 0
      (by simpa using hearlier) hj (by simpa using herr)
  constructor
  · rw [SyntheticFeasibility.call, scoreLoop_snd, hrun]
  · rw [SyntheticFeasibility.call, scoreLoop_fst, List.nil_append]
    exact runTrace_error_at net smilies err j _ 0
      (by simpa using hearlier) hj (by simpa using herr)

/-- `xs or [d]` is never empty. -/
theorem pyOrList_length_pos {α : Type} (v : Option (List α)) (d : α) :
    0 < (pyOrList v [d]).length := by
  cases v with
  | none => simp [pyOrList]
  | some xs => cases xs <;> simp [pyOrList]

/-- The dict-entry slot value is the sentinel whenever the prediction is
absent, `None`, or fails to coerce. -/
theorem objSlot_eq_none (kvs : List (String × JsonVal))
    (h : kvs.lookup "prediction" = none ∨
         kvs.lookup "prediction" = some .null ∨
         ∃ p e, kvs.lookup "prediction" = some p ∧ pyFloat p = .error e) :
    objSlot kvs = none := by
  unfold objSlot
  rcases h with h | h | ⟨p, e, hp, he⟩
  · rw [h]
  · rw [h]
  · rw [hp]
    cases p with
    | null => rfl
    | num q =>
        by_cases hb : doubleOverflowBound ≤ |q|
        · simp [pyFloat, hb]
        · simp [pyFloat, hb] at he
    | bool b => simp [pyFloat] at he
    | str s =>
        cases hs : pyFloatString s with
        | some q => simp [pyFloat, hs] at he
        | none => simp [pyFloat, hs]
    | arr xs => simp [pyFloat]
    | obj kvs2 => simp [pyFloat]

/-- With a single endpoint the single POST is always issued, whatever its
outcome. -/
theorem runTrace_singleton (net : ℕ → HttpOutcome) (smilies : List String)
    (t : String × ℕ × String) (n : ℕ) :
    runTrace net smilies [t] n = [mkRequest t smilies] := by
  simp only [runTrace]
  cases endpointResult (net n) smilies.length <;> rfl

/-! ### Claims -/

/-- C1: for every batch of size N ≥ 0 and every configuration of E ≥ 1
endpoints (the three resolved parameter lists having equal length E), a
`score` call that returns (does not raise) returns exactly E score arrays,
each of length exactly N, regardless of what each remote server returned. -/
theorem score_shape_invariant (p : Parameters) (net : ℕ → HttpOutcome)
    (smilies : List String) (reqs : List HttpRequest)
    (out : List (List ScoreVal))
    (hports : (SyntheticFeasibility.init p).server_ports.length =
      (SyntheticFeasibility.init p).server_urls.length)
    (heps : (SyntheticFeasibility.init p).server_endpoints.length =
      (SyntheticFeasibility.init p).server_urls.length)
    (hok : (SyntheticFeasibility.init p).call net smilies = (reqs, .ok out)) :
    1 ≤ (SyntheticFeasibility.init p).number_of_endpoints ∧
    out.length = (SyntheticFeasibility.init p).number_of_endpoints ∧
    ∀ v ∈ out, v.length = smilies.length := by
  obtain ⟨-, hlen, hmem, -⟩ := call_ok_char _ net smilies reqs out hok
  have hzip : ((SyntheticFeasibility.init p).server_urls.zip
      ((SyntheticFeasibility.init p).server_ports.zip
        (SyntheticFeasibility.init p).server_endpoints)).length =
      (SyntheticFeasibility.init p).server_urls.length := by
    simp [List.length_zip, hports, heps]
  have hE : (SyntheticFeasibility.init p).number_of_endpoints =
      (SyntheticFeasibility.init p).server_urls.length := rfl
  refine ⟨?_, by rw [hlen, hzip, hE], hmem⟩
  rw [hE]
  exact pyOrList_length_pos p.server_url DEFAULT_SERVER_URL

/-- C2: an endpoint whose POST raises a transport-level exception is caught:
its slot in the result is an all-NaN array of the batch's length, the call
does not raise, all remaining endpoints are still queried, and every other
endpoint's array is exactly its own outcome's result, unaffected by the
failure. -/
theorem transport_failure_isolated (p : Parameters) (net : ℕ → HttpOutcome)
    (smilies : List String) (j : ℕ)
    (hports : (SyntheticFeasibility.init p).server_ports.length =
      (SyntheticFeasibility.init p).server_urls.length)
    (heps : (SyntheticFeasibility.init p).server_endpoints.length =
      (SyntheticFeasibility.init p).server_urls.length)
    (hj : j < (SyntheticFeasibility.init p).number_of_endpoints)
    (hfail : net j = .transportError)
    (hothers : ∀ k, k < (SyntheticFeasibility.init p).number_of_endpoints →
      k ≠ j → ∃ v, endpointResult (net k) smilies.length = .ok v) :
    ∃ out, ((SyntheticFeasibility.init p).call net smilies).2 = .ok out ∧
      ((SyntheticFeasibility.init p).call net smilies).1.length =
        (SyntheticFeasibility.init p).number_of_endpoints ∧
      out[j]? = some (List.replicate smilies.length (none : ScoreVal)) ∧
      ∀ k v, k < (SyntheticFeasibility.init p).number_of_endpoints →
        endpointResult (net k) smilies.length = .ok v → out[k]? = some v := by
  have hzip : ((SyntheticFeasibility.init p).server_urls.zip
      ((SyntheticFeasibility.init p).server_ports.zip
        (SyntheticFeasibility.init p).server_endpoints)).length =
      (SyntheticFeasibility.init p).number_of_endpoints := by
    simp [List.length_zip, hports, heps]
    rfl
  have hjres : endpointResult (net j) smilies.length =
      .ok (List.replicate smilies.length none) := by
    rw [hfail]
    rfl
  have hall : ∀ k, k < ((SyntheticFeasibility.init p).server_urls.zip
      ((SyntheticFeasibility.init p).server_ports.zip
        (SyntheticFeasibility.init p).server_endpoints)).length →
      ∃ v, endpointResult (net k) smilies.length = .ok v := by
    intro k hk
    by_cases hkj : k = j
    · exact ⟨_, hkj ▸ hjres⟩
    · exact hothers k (hzip ▸ hk) hkj
  obtain ⟨out, hout⟩ := call_ok_of_all _ net smilies hall
  have hcall : (SyntheticFeasibility.init p).call net smilies =
      (((SyntheticFeasibility.init p).call net smilies).1, .ok out) := by
    rw [← hout]
  obtain ⟨hreqs, -, -, hget⟩ := call_ok_char _ net smilies _ out hcall
  refine ⟨out, hout, ?_, ?_, fun k v hk hv => hget k v (by omega) hv⟩
  · rw [hreqs, List.length_map, hzip]
  · exact hget j _ (by omega) hjres

/-- C3: an endpoint whose response has status ≠ 200 makes the call raise the
descriptive `ValueError` — whose message carries the status code, reason,
content and text — uncaught, so no result list is returned and the
endpoints after it are never queried (only POSTs 0..j are issued). -/
theorem http_error_propagates (p : Parameters) (net : ℕ → HttpOutcome)
    (smilies : List String) (j : ℕ) (r : PyResponse)
    (hports : (SyntheticFeasibility.init p).server_ports.length =
      (SyntheticFeasibility.init p).server_urls.length)
    (heps : (SyntheticFeasibility.init p).server_endpoints.length =
      (SyntheticFeasibility.init p).server_urls.length)
    (hj : j < (SyntheticFeasibility.init p).number_of_endpoints)
    (hearlier : ∀ k, k < j →
      ∃ v, endpointResult (net k) smilies.length = .ok v)
    (hresp : net j = .response r) (hstatus : r.status_code ≠ 200) :
    ((SyntheticFeasibility.init p).call net smilies).2 =
      .error (.valueError (apiFailureMessage r)) ∧
    ((SyntheticFeasibility.init p).call net smilies).1.length = j + 1 ∧
    ∃ s₁ s₂ s₃ s₄, apiFailureMessage r =
      s₁ ++ toString r.status_code ++ s₂ ++ r.reason ++ s₃ ++ r.content ++
        s₄ ++ r.text := by
  have hzip : ((SyntheticFeasibility.init p).server_urls.zip
      ((SyntheticFeasibility.init p).server_ports.zip
        (SyntheticFeasibility.init p).server_endpoints)).length =
      (SyntheticFeasibility.init p).number_of_endpoints := by
    simp [List.length_zip, hports, heps]
    rfl
  have herr : endpointResult (net j) smilies.length =
      .error (.valueError (apiFailureMessage r)) := by
    rw [hresp]
    simp [endpointResult, hstatus]
  obtain ⟨h1, h2⟩ := call_error_char (SyntheticFeasibility.init p) net smilies j _
    (by rw [hzip]; omega) hearlier herr
  refine ⟨h1, ?_, "Synthetic feasibility API failed.\nStatus Code: ",
    "\nReason: (", ")\nResponse content: ", "\nResponse text: ", rfl⟩
  rw [h2, List.length_map, List.length_take]
  omega

/-- C4 counterexample, both uncaught paths at concrete inputs: a response
entry that is not a dict — the JSON number `5` — makes
`result.get("prediction")` raise `AttributeError`; and a dict entry whose
prediction is a JSON integer beyond double range — `2^1024` — makes
`float(prediction)` raise `OverflowError`.  Neither is caught by
`except (ValueError, TypeError, KeyError)`, so the whole parse fails
instead of leaving slot 0 as the sentinel. -/
theorem parse_bad_entry_raises_cex :
    parse_response (.arr [.num 5]) 1 = .error .attributeError ∧
    parse_response (.arr [.obj [("prediction",
        .num 179769313486231590772930519078902473361797697894230657273430081157732675805500963132708477322407536021120113879871393357658789768814416622492847430639474124377767893424865485276302219601246094119453082952085005768838150682342462881473913110540827237163350510684586298239947245938479716304835356329624224137216)]]) 1 =
      .error .overflowError := ⟨rfl, rfl⟩

/-- C4 (amended): for every response entry at position i < batch_size that
IS a dict and whose prediction, when a JSON number, lies within double
range: a missing or `None` prediction value, or a prediction value whose
float coercion fails with a ValueError or TypeError, leaves slot i as the
missing sentinel and never fails the parse.  An entry that is not a dict
raises an uncaught `AttributeError`, and an integer prediction at or beyond
the double range raises an uncaught `OverflowError` (see the
counterexample), each failing the whole parse — so the no-raise guarantee
is stated for responses whose entries are all in-range dicts. -/
theorem parse_dict_entries_never_raise (entries : List JsonVal) (d : ℕ)
    (hdict : ∀ e ∈ entries, ∃ kvs, e = JsonVal.obj kvs ∧
      ∀ q, kvs.lookup "prediction" = some (JsonVal.num q) →
        |q| < doubleOverflowBound) :
    ∃ out, parse_response (.arr entries) d = .ok out ∧ out.length = d ∧
      ∀ k, (hk : k < entries.length) → k < d →
        ∀ kvs, entries.get ⟨k, hk⟩ = JsonVal.obj kvs →
          (kvs.lookup "prediction" = none ∨
           kvs.lookup "prediction" = some .null ∨
           ∃ p e, kvs.lookup "prediction" = some p ∧ pyFloat p = .error e) →
          out[k]? = some none := by
  obtain ⟨out, hout⟩ :=
    parseLoop_ok_of_dicts d entries 0 (List.replicate d none) hdict
  have hpr : parse_response (.arr entries) d = .ok out := hout
  refine ⟨out, hpr, parse_response_length _ _ _ hpr, ?_⟩
  intro k hk hkd kvs hobj hbad
  obtain ⟨kvs2, hkvs2, hrange2⟩ :=
    hdict (entries.get ⟨k, hk⟩) (entries.get_mem _ _)
  have hkeq : kvs2 = kvs := by
    rw [hobj] at hkvs2
    exact (JsonVal.obj.inj hkvs2).symm
  have hstep : entryStep (entries.get ⟨k, hk⟩) = .ok none := by
    rw [hobj, entryStep_obj kvs (hkeq ▸ hrange2), objSlot_eq_none kvs hbad]
  have hslot := parseLoop_get_skipped d entries 0 (List.replicate d none) out
    hout k hk (by omega) hstep
  rw [Nat.zero_add] at hslot
  rw [hslot, List.getElem?_replicate, if_pos hkd]

/-- C4 witness: a dict entry with a `None` prediction and a dict entry with
no prediction key both leave their slots as the sentinel without raising. -/
theorem parse_dict_entries_never_raise_witness :
    (∀ e ∈ ([.obj [("prediction", .null)], .obj []] : List JsonVal),
        ∃ kvs, e = JsonVal.obj kvs ∧
          ∀ q, kvs.lookup "prediction" = some (JsonVal.num q) →
            |q| < doubleOverflowBound) ∧
    ∃ out, parse_response (.arr [.obj [("prediction", .null)], .obj []]) 2 =
        .ok out ∧ out.length = 2 ∧ out[0]? = some none := by
  have hdict : ∀ e ∈ ([.obj [("prediction", .null)], .obj []] : List JsonVal),
      ∃ kvs, e = JsonVal.obj kvs ∧
        ∀ q, kvs.lookup "prediction" = some (JsonVal.num q) →
          |q| < doubleOverflowBound := by
    rintro e he
    simp only [List.mem_cons, List.mem_singleton, List.not_mem_nil, or_false] at he
    rcases he with rfl | rfl
    · exact ⟨_, rfl, fun q hq => JsonVal.noConfusion (Option.some.inj hq)⟩
    · exact ⟨_, rfl, fun q hq => Option.noConfusion hq⟩
  obtain ⟨out, h1, h2, h3⟩ :=
    parse_dict_entries_never_raise [.obj [("prediction", .null)], .obj []] 2 hdict
  exact ⟨hdict, out, h1, h2,
    h3 0 (by simp) (by omega) [("prediction", .null)] rfl (Or.inr (Or.inl rfl))⟩

/-- C5 counterexample: a list response with a non-dict entry (the string
`"CCO"`) at a position below batch_size makes the parse raise, so no output
with batch_size slots is produced for that response — the positional-fill
contract holds only for parses that return. -/
theorem parse_positional_cex :
    parse_response (.arr [.str "CCO", .obj [("prediction", .num 1)]]) 2 =
      .error .attributeError := rfl

/-- C5 (amended): for every list response for which the parse returns (a
non-dict entry in range instead raises, see the counterexample), response
entry i is mapped to output slot i for i < batch_size — the written value
being the entry's coerced prediction —, entries from batch_size onward are
ignored (the output has exactly batch_size slots), and when the response is
shorter than batch_size the remaining slots stay the missing sentinel. -/
theorem parse_positional_alignment (entries : List JsonVal) (d : ℕ)
    (out : List ScoreVal) (hok : parse_response (.arr entries) d = .ok out) :
    out.length = d ∧
    (∀ k, (hk : k < entries.length) → k < d →
       (∀ q, entryStep (entries.get ⟨k, hk⟩) = .ok (some q) →
          out[k]? = some (some q)) ∧
       (entryStep (entries.get ⟨k, hk⟩) = .ok none → out[k]? = some none)) ∧
    (∀ k, entries.length ≤ k → k < d → out[k]? = some none) := by
  have hloop : parseLoop d entries 0 (List.replicate d none) = .ok out := hok
  refine ⟨parse_response_length _ _ _ hok, ?_, ?_⟩
  · intro k hk hkd
    constructor
    · intro q hq
      have hslot := parseLoop_get_assigned d entries 0 _ out hloop k hk
        (by omega) q hq (by rw [List.length_replicate]; omega)
      simpa using hslot
    · intro hq
      have hslot := parseLoop_get_skipped d entries 0 _ out hloop k hk
        (by omega) hq
      rw [Nat.zero_add] at hslot
      rw [hslot, List.getElem?_replicate, if_pos hkd]
  · intro k hke hkd
    have hslot := parseLoop_get_outside d entries 0 _ out hloop k (by omega)
    rw [hslot, List.getElem?_replicate, if_pos hkd]

/-- C5 witness: batch size 3, a 2-entry response — the first slot carries
entry 0's prediction, the third slot stays the sentinel. -/
theorem parse_positional_alignment_witness :
    parse_response (.arr [.obj [("prediction", .num 3)], .obj []]) 3 =
      .ok [some (PyFloat.finite 3), none, none] ∧
    ([some (PyFloat.finite 3), none, none] : List ScoreVal).length = 3 ∧
    ([some (PyFloat.finite 3), none, none] : List ScoreVal)[0]? = some (some (PyFloat.finite 3)) ∧
    ([some (PyFloat.finite 3), none, none] : List ScoreVal)[2]? = some none := by
  have h := parse_positional_alignment [.obj [("prediction", .num 3)], .obj []]
    3 [some (PyFloat.finite 3), none, none] rfl
  exact ⟨rfl, h.1,
    (h.2.1 0 (by simp) (by omega)).1 (PyFloat.finite 3) rfl,
    h.2.2 2 (by simp) (by omega)⟩

/-- C6: a parsed response body that is not a JSON list yields the
all-missing array of length batch_size, without raising. -/
theorem parse_non_list_all_missing (j : JsonVal) (d : ℕ)
    (h : j.isList = false) :
    parse_response j d = .ok (List.replicate d none) := by
  cases j <;> first
    | rfl
    | exact absurd h (by simp [JsonVal.isList])

/-- C6 witness: a JSON object body with batch size 3. -/
theorem parse_non_list_all_missing_witness :
    (JsonVal.obj [("error", .str "bad request")]).isList = false ∧
    parse_response (.obj [("error", .str "bad request")]) 3 =
      .ok (List.replicate 3 none) :=
  ⟨rfl, parse_non_list_all_missing (.obj [("error", .str "bad request")]) 3 rfl⟩

/-- C7: each of the three configuration fields that is unset (absent/`None`
or the empty list) is replaced at construction by its single-element default
— URL `http://localhost`, port 5000, path `synthetic_feasibility_surrogate`
— so that with no configuration at all exactly one endpoint is used and
every POST goes to `http://localhost:5000/synthetic_feasibility_surrogate`. -/
theorem defaults_substituted (p : Parameters) :
    ((p.server_url = none ∨ p.server_url = some []) →
      (SyntheticFeasibility.init p).server_urls = [DEFAULT_SERVER_URL]) ∧
    ((p.server_port = none ∨ p.server_port = some []) →
      (SyntheticFeasibility.init p).server_ports = [DEFAULT_SERVER_PORT]) ∧
    ((p.server_endpoint = none ∨ p.server_endpoint = some []) →
      (SyntheticFeasibility.init p).server_endpoints = [DEFAULT_SERVER_ENDPOINT]) ∧
    ((p.server_url = none ∨ p.server_url = some []) →
     (p.server_port = none ∨ p.server_port = some []) →
     (p.server_endpoint = none ∨ p.server_endpoint = some []) →
      (SyntheticFeasibility.init p).number_of_endpoints = 1 ∧
      ∀ net smilies,
        ((SyntheticFeasibility.init p).call net smilies).1.map HttpRequest.url =
          ["http://localhost:5000/synthetic_feasibility_surrogate"]) := by
  have hu : (p.server_url = none ∨ p.server_url = some []) →
      (SyntheticFeasibility.init p).server_urls = [DEFAULT_SERVER_URL] := by
    intro h
    rcases h with h | h <;> simp [SyntheticFeasibility.init, pyOrList, h]
  have hp : (p.server_port = none ∨ p.server_port = some []) →
      (SyntheticFeasibility.init p).server_ports = [DEFAULT_SERVER_PORT] := by
    intro h
    rcases h with h | h <;> simp [SyntheticFeasibility.init, pyOrList, h]
  have he : (p.server_endpoint = none ∨ p.server_endpoint = some []) →
      (SyntheticFeasibility.init p).server_endpoints = [DEFAULT_SERVER_ENDPOINT] := by
    intro h
    rcases h with h | h <;> simp [SyntheticFeasibility.init, pyOrList, h]
  refine ⟨hu, hp, he, ?_⟩
  intro h1 h2 h3
  have hurls := hu h1
  have hports := hp h2
  have heps := he h3
  constructor
  · show (SyntheticFeasibility.init p).server_urls.length = 1
    rw [hurls]
    rfl
  · intro net smilies
    rw [SyntheticFeasibility.call, hurls, hports, heps, scoreLoop_fst,
      List.nil_append]
    have hzip1 : ([DEFAULT_SERVER_URL].zip
        ([DEFAULT_SERVER_PORT].zip [DEFAULT_SERVER_ENDPOINT])) =
        [(DEFAULT_SERVER_URL, DEFAULT_SERVER_PORT, DEFAULT_SERVER_ENDPOINT)] := rfl
    rw [hzip1, runTrace_singleton]
    rfl

/-- C7 witness: the empty configuration. -/
theorem defaults_substituted_witness :
    (SyntheticFeasibility.init ⟨none, none, none⟩).server_urls =
      [DEFAULT_SERVER_URL] ∧
    (SyntheticFeasibility.init ⟨none, none, none⟩).server_ports =
      [DEFAULT_SERVER_PORT] ∧
    (SyntheticFeasibility.init ⟨none, none, none⟩).server_endpoints =
      [DEFAULT_SERVER_ENDPOINT] ∧
    (SyntheticFeasibility.init ⟨none, none, none⟩).number_of_endpoints = 1 ∧
    ((SyntheticFeasibility.init ⟨none, none, none⟩).call
        (fun _ => HttpOutcome.transportError) ["CCO"]).1.map HttpRequest.url =
      ["http://localhost:5000/synthetic_feasibility_surrogate"] := by
  obtain ⟨h1, h2, h3, h4⟩ := defaults_substituted ⟨none, none, none⟩
  obtain ⟨h5, h6⟩ := h4 (Or.inl rfl) (Or.inl rfl) (Or.inl rfl)
  exact ⟨h1 (Or.inl rfl), h2 (Or.inl rfl), h3 (Or.inl rfl), h5,
    h6 (fun _ => HttpOutcome.transportError) ["CCO"]⟩

/-- C8: mismatched list lengths raise no construction error (`init` is
total); a call that returns queried exactly
min(|urls|, |ports|, |endpoints|) endpoints — the positional zip truncates
to the shortest list — issuing one POST per truncated triple in order and
producing one score array per truncated triple in that order. -/
theorem zip_truncates (p : Parameters) (net : ℕ → HttpOutcome)
    (smilies : List String) (reqs : List HttpRequest)
    (out : List (List ScoreVal))
    (_hmismatch : ¬((SyntheticFeasibility.init p).server_ports.length =
        (SyntheticFeasibility.init p).server_urls.length ∧
      (SyntheticFeasibility.init p).server_endpoints.length =
        (SyntheticFeasibility.init p).server_urls.length))
    (hcall : (SyntheticFeasibility.init p).call net smilies = (reqs, .ok out)) :
    reqs.length = min (SyntheticFeasibility.init p).server_urls.length
      (min (SyntheticFeasibility.init p).server_ports.length
        (SyntheticFeasibility.init p).server_endpoints.length) ∧
    out.length = min (SyntheticFeasibility.init p).server_urls.length
      (min (SyntheticFeasibility.init p).server_ports.length
        (SyntheticFeasibility.init p).server_endpoints.length) ∧
    reqs = ((SyntheticFeasibility.init p).server_urls.zip
        ((SyntheticFeasibility.init p).server_ports.zip
          (SyntheticFeasibility.init p).server_endpoints)).map
        (fun t => mkRequest t smilies) ∧
    ∀ k v, k < min (SyntheticFeasibility.init p).server_urls.length
        (min (SyntheticFeasibility.init p).server_ports.length
          (SyntheticFeasibility.init p).server_endpoints.length) →
      endpointResult (net k) smilies.length = .ok v → out[k]? = some v := by
  obtain ⟨hreqs, hlen, -, hget⟩ := call_ok_char _ net smilies reqs out hcall
  have hzl : ((SyntheticFeasibility.init p).server_urls.zip
      ((SyntheticFeasibility.init p).server_ports.zip
        (SyntheticFeasibility.init p).server_endpoints)).length =
      min (SyntheticFeasibility.init p).server_urls.length
        (min (SyntheticFeasibility.init p).server_ports.length
          (SyntheticFeasibility.init p).server_endpoints.length) := by
    rw [List.length_zip, List.length_zip]
  refine ⟨?_, by rw [hlen, hzl], hreqs, ?_⟩
  · rw [hreqs, List.length_map, hzl]
  · intro k v hk hv
    exact hget k v (by rw [hzl]; omega) hv

/-- C8 witness: two URLs, one port, three endpoint paths — one endpoint
queried. -/
theorem zip_truncates_witness :
    (¬((SyntheticFeasibility.init ⟨some ["http://a", "http://b"], some [7],
        some ["p", "q", "s"]⟩).server_ports.length =
      (SyntheticFeasibility.init ⟨some ["http://a", "http://b"], some [7],
        some ["p", "q", "s"]⟩).server_urls.length ∧
      (SyntheticFeasibility.init ⟨some ["http://a", "http://b"], some [7],
        some ["p", "q", "s"]⟩).server_endpoints.length =
      (SyntheticFeasibility.init ⟨some ["http://a", "http://b"], some [7],
        some ["p", "q", "s"]⟩).server_urls.length)) ∧
    [mkRequest ("http://a", 7, "p") ["CCO"]].length = 1 ∧
    ([[(none : ScoreVal)]] : List (List ScoreVal)).length = 1 := by
  have h := zip_truncates ⟨some ["http://a", "http://b"], some [7], some ["p", "q", "s"]⟩
    (fun _ => HttpOutcome.transportError) ["CCO"]
    [mkRequest ("http://a", 7, "p") ["CCO"]] [[none]]
    (by
      intro hc
      simp [SyntheticFeasibility.init, pyOrList] at hc)
    rfl
  exact ⟨by
    intro hc
    simp [SyntheticFeasibility.init, pyOrList] at hc,
    by rw [h.1]; rfl,
    by rw [h.2.1]; rfl⟩

/-- C9: for every configured endpoint and every batch, a call that returns
issued exactly one POST per endpoint, addressed `{url}:{port}/{path}`, with
JSON body `{"smiles": <batch as ordered list of strings>}`, header
`Content-Type: application/json`, and timeout 30 seconds. -/
theorem request_shape (p : Parameters) (net : ℕ → HttpOutcome)
    (smilies : List String) (reqs : List HttpRequest)
    (out : List (List ScoreVal))
    (hports : (SyntheticFeasibility.init p).server_ports.length =
      (SyntheticFeasibility.init p).server_urls.length)
    (heps : (SyntheticFeasibility.init p).server_endpoints.length =
      (SyntheticFeasibility.init p).server_urls.length)
    (hcall : (SyntheticFeasibility.init p).call net smilies = (reqs, .ok out)) :
    reqs.length = (SyntheticFeasibility.init p).number_of_endpoints ∧
    ∀ (k : ℕ) (t : String × ℕ × String),
      ((SyntheticFeasibility.init p).server_urls.zip
        ((SyntheticFeasibility.init p).server_ports.zip
          (SyntheticFeasibility.init p).server_endpoints))[k]? = some t →
      reqs[k]? = some
        (HttpRequest.mk (t.1 ++ ":" ++ toString t.2.1 ++ "/" ++ t.2.2)
          (JsonVal.obj [("smiles", JsonVal.arr (smilies.map JsonVal.str))])
          [("Content-Type", "application/json")]
          30) := by
  obtain ⟨hreqs, -, -, -⟩ := call_ok_char _ net smilies reqs out hcall
  constructor
  · rw [hreqs, List.length_map, List.length_zip, List.length_zip, hports, heps]
    simp
    rfl
  · intro k t ht
    rw [hreqs, List.getElem?_map, ht]
    obtain ⟨u, pr, ep⟩ := t
    rfl

/-- C1 witness: two endpoints, batch of one SMILES; endpoint 0 suffers a
transport failure, endpoint 1 answers — two arrays of length 1. -/
theorem score_shape_invariant_witness :
    (SyntheticFeasibility.init ⟨some ["http://a", "http://b"], some [1, 2],
        some ["p", "q"]⟩).server_ports.length =
      (SyntheticFeasibility.init ⟨some ["http://a", "http://b"], some [1, 2],
        some ["p", "q"]⟩).server_urls.length ∧
    (SyntheticFeasibility.init ⟨some ["http://a", "http://b"], some [1, 2],
        some ["p", "q"]⟩).server_endpoints.length =
      (SyntheticFeasibility.init ⟨some ["http://a", "http://b"], some [1, 2],
        some ["p", "q"]⟩).server_urls.length ∧
    (SyntheticFeasibility.init ⟨some ["http://a", "http://b"], some [1, 2],
        some ["p", "q"]⟩).call
      (fun n => if n = 0 then HttpOutcome.transportError
        else HttpOutcome.response ⟨200, "OK", "", "",
          some (.arr [.obj [("prediction", .num 1)]])⟩) ["CCO"] =
      ([mkRequest ("http://a", 1, "p") ["CCO"],
        mkRequest ("http://b", 2, "q") ["CCO"]],
        .ok [[none], [some (PyFloat.finite 1)]]) ∧
    (1 ≤ (SyntheticFeasibility.init ⟨some ["http://a", "http://b"], some [1, 2],
        some ["p", "q"]⟩).number_of_endpoints ∧
     ([[none], [some (PyFloat.finite 1)]] : List (List ScoreVal)).length =
      (SyntheticFeasibility.init ⟨some ["http://a", "http://b"], some [1, 2],
        some ["p", "q"]⟩).number_of_endpoints ∧
     ∀ v ∈ ([[none], [some (PyFloat.finite 1)]] : List (List ScoreVal)),
        v.length = (["CCO"] : List String).length) :=
  ⟨rfl, rfl, rfl,
    score_shape_invariant ⟨some ["http://a", "http://b"], some [1, 2], some ["p", "q"]⟩
      (fun n => if n = 0 then HttpOutcome.transportError
        else HttpOutcome.response ⟨200, "OK", "", "",
          some (.arr [.obj [("prediction", .num 1)]])⟩)
      ["CCO"]
      [mkRequest ("http://a", 1, "p") ["CCO"], mkRequest ("http://b", 2, "q") ["CCO"]]
      [[none], [some (PyFloat.finite 1)]] rfl rfl rfl⟩

/-- C2 witness: of two endpoints, endpoint 0 fails at transport level while
endpoint 1 succeeds; the call returns with an all-NaN first array. -/
theorem transport_failure_isolated_witness :
    (SyntheticFeasibility.init ⟨some ["http://a", "http://b"], some [1, 2],
        some ["p", "q"]⟩).server_ports.length =
      (SyntheticFeasibility.init ⟨some ["http://a", "http://b"], some [1, 2],
        some ["p", "q"]⟩).server_urls.length ∧
    (0 : ℕ) < (SyntheticFeasibility.init ⟨some ["http://a", "http://b"], some [1, 2],
        some ["p", "q"]⟩).number_of_endpoints ∧
    (fun n => if n = 0 then HttpOutcome.transportError
        else HttpOutcome.response ⟨200, "OK", "", "",
          some (.arr [.obj [("prediction", .num 1)]])⟩ : ℕ → HttpOutcome) 0 =
      HttpOutcome.transportError ∧
    ∃ out, ((SyntheticFeasibility.init ⟨some ["http://a", "http://b"], some [1, 2],
        some ["p", "q"]⟩).call
        (fun n => if n = 0 then HttpOutcome.transportError
          else HttpOutcome.response ⟨200, "OK", "", "",
            some (.arr [.obj [("prediction", .num 1)]])⟩) ["CCO"]).2 = .ok out ∧
      ((SyntheticFeasibility.init ⟨some ["http://a", "http://b"], some [1, 2],
          some ["p", "q"]⟩).call
          (fun n => if n = 0 then HttpOutcome.transportError
            else HttpOutcome.response ⟨200, "OK", "", "",
              some (.arr [.obj [("prediction", .num 1)]])⟩) ["CCO"]).1.length =
        (SyntheticFeasibility.init ⟨some ["http://a", "http://b"], some [1, 2],
          some ["p", "q"]⟩).number_of_endpoints ∧
      out[0]? = some (List.replicate (["CCO"] : List String).length (none : ScoreVal)) ∧
      ∀ k v, k < (SyntheticFeasibility.init ⟨some ["http://a", "http://b"], some [1, 2],
          some ["p", "q"]⟩).number_of_endpoints →
        endpointResult ((fun n => if n = 0 then HttpOutcome.transportError
          else HttpOutcome.response ⟨200, "OK", "", "",
            some (.arr [.obj [("prediction", .num 1)]])⟩ : ℕ → HttpOutcome) k)
          (["CCO"] : List String).length = .ok v → out[k]? = some v := by
  refine ⟨rfl, by decide, rfl, ?_⟩
  exact transport_failure_isolated
    ⟨some ["http://a", "http://b"], some [1, 2], some ["p", "q"]⟩
    (fun n => if n = 0 then HttpOutcome.transportError
      else HttpOutcome.response ⟨200, "OK", "", "",
        some (.arr [.obj [("prediction", .num 1)]])⟩)
    ["CCO"] 0 rfl rfl (by decide) rfl
    (by
      intro k hk hne
      have hk1 : k = 1 := by
        have : k < 2 := hk
        omega
      subst hk1
      exact ⟨[some (PyFloat.finite 1)], rfl⟩)

/-- C3 witness: the single default endpoint answers HTTP 500 — the call
raises the descriptive ValueError and only one POST was issued. -/
theorem http_error_propagates_witness :
    (SyntheticFeasibility.init ⟨none, none, none⟩).server_ports.length =
      (SyntheticFeasibility.init ⟨none, none, none⟩).server_urls.length ∧
    (0 : ℕ) < (SyntheticFeasibility.init ⟨none, none, none⟩).number_of_endpoints ∧
    (fun _ => HttpOutcome.response ⟨500, "Internal Server Error", "boom", "boom",
        none⟩ : ℕ → HttpOutcome) 0 =
      HttpOutcome.response ⟨500, "Internal Server Error", "boom", "boom", none⟩ ∧
    (500 : ℕ) ≠ 200 ∧
    ((SyntheticFeasibility.init ⟨none, none, none⟩).call
        (fun _ => HttpOutcome.response ⟨500, "Internal Server Error", "boom",
          "boom", none⟩) ["CCO"]).2 =
      .error (.valueError (apiFailureMessage
        ⟨500, "Internal Server Error", "boom", "boom", none⟩)) ∧
    ((SyntheticFeasibility.init ⟨none, none, none⟩).call
        (fun _ => HttpOutcome.response ⟨500, "Internal Server Error", "boom",
          "boom", none⟩) ["CCO"]).1.length = 1 ∧
    ∃ s₁ s₂ s₃ s₄,
      apiFailureMessage ⟨500, "Internal Server Error", "boom", "boom", none⟩ =
        s₁ ++ toString (500 : ℕ) ++ s₂ ++ "Internal Server Error" ++ s₃ ++
          "boom" ++ s₄ ++ "boom" := by
  refine ⟨rfl, by decide, rfl, by decide, ?_⟩
  exact http_error_propagates ⟨none, none, none⟩
    (fun _ => HttpOutcome.response ⟨500, "Internal Server Error", "boom", "boom", none⟩)
    ["CCO"] 0 ⟨500, "Internal Server Error", "boom", "boom", none⟩
    rfl rfl (by decide)
    (by intro k hk; omega)
    rfl (by decide)

/-- C9 witness: two endpoints, batch of one SMILES — the first POST goes to
`http://a:1/p` with body `{"smiles": ["CCO"]}`, the JSON header and
timeout 30. -/
theorem request_shape_witness :
    (SyntheticFeasibility.init ⟨some ["http://a", "http://b"], some [1, 2],
        some ["p", "q"]⟩).server_endpoints.length =
      (SyntheticFeasibility.init ⟨some ["http://a", "http://b"], some [1, 2],
        some ["p", "q"]⟩).server_urls.length ∧
    ([mkRequest ("http://a", 1, "p") ["CCO"],
      mkRequest ("http://b", 2, "q") ["CCO"]] : List HttpRequest).length =
      (SyntheticFeasibility.init ⟨some ["http://a", "http://b"], some [1, 2],
        some ["p", "q"]⟩).number_of_endpoints ∧
    ([mkRequest ("http://a", 1, "p") ["CCO"],
      mkRequest ("http://b", 2, "q") ["CCO"]] : List HttpRequest)[0]? =
      some (HttpRequest.mk ("http://a" ++ ":" ++ toString (1 : ℕ) ++ "/" ++ "p")
        (JsonVal.obj [("smiles", JsonVal.arr ((["CCO"] : List String).map JsonVal.str))])
        [("Content-Type", "application/json")]
        30) := by
  have h := request_shape
    ⟨some ["http://a", "http://b"], some [1, 2], some ["p", "q"]⟩
    (fun n => if n = 0 then HttpOutcome.transportError
      else HttpOutcome.response ⟨200, "OK", "", "",
        some (.arr [.obj [("prediction", .num 1)]])⟩)
    ["CCO"]
    [mkRequest ("http://a", 1, "p") ["CCO"], mkRequest ("http://b", 2, "q") ["CCO"]]
    [[none], [some (PyFloat.finite 1)]] rfl rfl rfl
  exact ⟨rfl, h.1, h.2 0 ("http://a", 1, "p") rfl⟩

end CompSyntheticFeasibility
